import Mathlib

/-! Verification of the workflow-template instantiation and bulk-provisioning
engine of `engine/api/templates.go`: the instance reconciler (`applyTemplate`),
the bulk orchestrator (`postTemplateBulkHandler` / `getTemplateBulkHandler`)
and the archive codec (`ReadFromTar`). External collaborators — template
execution, yaml (un)marshalling, project loading, archive encoding and
workflow push — are modelled as oracle functions supplied as parameters.
The persistent store is modelled as explicit lists threaded through the
functions; the reconciler's transaction is modelled by performing all writes
on a local copy of the instance list that only becomes visible at the commit
point, every error path returning the untouched input list (this mirrors
`tx := db.Begin(); defer tx.Rollback(); ...; tx.Commit()`). -/

namespace CDS

/-- mirrors the fields of `sdk.WorkflowTemplateRequest` that the engine code
reads: project key, requested workflow name, parameter values and the
detached (preview-only) flag. -/
structure WorkflowTemplateRequest where
  projectKey : String
  workflowName : String
  parameters : List (String × String)
  detached : Bool
deriving DecidableEq, Repr

/-- mirrors `sdk.WorkflowTemplateInstance`: a persisted row linking one
template to one project, pinned to the applied template version, carrying
the request that produced it and, once resolved, the workflow name. -/
structure WorkflowTemplateInstance where
  id : Int
  workflowTemplateID : Int
  projectID : Int
  workflowTemplateVersion : Int
  request : WorkflowTemplateRequest
  workflowName : String
deriving DecidableEq, Repr

/-- mirrors the fields of `sdk.WorkflowTemplate` used by `applyTemplate`:
identity, owning group name, slug and current version. -/
structure WorkflowTemplate where
  id : Int
  groupName : String
  slug : String
  version : Int
deriving DecidableEq, Repr

/-- mirrors the fields of `sdk.Project` used by the handlers. -/
structure Project where
  id : Int
  key : String
deriving DecidableEq, Repr

/-- mirrors `sdk.WorkflowTemplateResult`: the generated workflow text plus
the generated supporting artifact texts. -/
structure WorkflowTemplateResult where
  workflow : String
  pipelines : List String
  applications : List String
  environments : List String
deriving DecidableEq, Repr

/-- mirrors the fields of `exportentities.Workflow` used by `applyTemplate`:
the canonical name recovered by parsing the generated text, and the optional
back-reference to the originating template. -/
structure ExportWorkflow where
  name : String
  template : Option String
deriving DecidableEq, Repr

/-- instance lifecycle events published after commit, mirroring
`event.PublishWorkflowTemplateInstanceUpdate` and
`event.PublishWorkflowTemplateInstanceAdd`. -/
inductive TemplateEvent where
  | instanceUpdate (old upd : WorkflowTemplateInstance)
  | instanceAdd (wti : WorkflowTemplateInstance)
deriving DecidableEq, Repr

/-- errors surfaced by `applyTemplate`: a template-execution failure is
propagated verbatim (a validation signal), while generated-workflow parse or
re-serialize failures are user-facing wrong-request errors carrying the
corresponding message. -/
inductive ApplyError where
  | execError (msg : String)
  | wrongRequest (msg : String)
deriving DecidableEq, Repr

deriving instance DecidableEq for Except

/-- outcome of one `applyTemplate` call: its returned result, the persisted
instance list after the call, and the instance lifecycle events emitted
after commit. -/
structure ApplyOutcome where
  result : Except ApplyError WorkflowTemplateResult
  instances : List WorkflowTemplateInstance
  events : List TemplateEvent
deriving DecidableEq, Repr

/-- oracles for the external collaborators of `applyTemplate`:
`workflowtemplate.Execute`, `yaml.Unmarshal` into `exportentities.Workflow`
and `yaml.Marshal` of such a value. -/
structure ApplyOracles where
  execute : WorkflowTemplate → WorkflowTemplateInstance → Except String WorkflowTemplateResult
  yamlUnmarshalWorkflow : String → Option ExportWorkflow
  yamlMarshalWorkflow : ExportWorkflow → Option String

/-- row selector of the instance lookup: same template, same project and
same requested workflow name. -/
def keyPred (templateID projectID : Int) (workflowName : String)
    (i : WorkflowTemplateInstance) : Bool :=
  i.workflowTemplateID == templateID && i.projectID == projectID
    && i.request.workflowName == workflowName

/-- mirrors `workflowtemplate.GetInstancesByTemplateIDAndProjectIDAndRequestWorkflowName`:
all persisted instances for the given template, project and requested
workflow name, in store order. -/
def getInstancesByKey (store : List WorkflowTemplateInstance)
    (templateID projectID : Int) (workflowName : String) :
    List WorkflowTemplateInstance :=
  store.filter (keyPred templateID projectID workflowName)

/-- mirrors `workflowtemplate.DeleteInstance`: remove the row with the given
instance's id. -/
def deleteInstance (store : List WorkflowTemplateInstance)
    (wti : WorkflowTemplateInstance) : List WorkflowTemplateInstance :=
  store.filter (fun i => i.id != wti.id)

/-- mirrors `workflowtemplate.UpdateInstance`: replace the row carrying the
given instance's id. -/
def updateInstance (store : List WorkflowTemplateInstance)
    (wti : WorkflowTemplateInstance) : List WorkflowTemplateInstance :=
  store.map (fun i => if i.id == wti.id then wti else i)

/-- mirrors `workflowtemplate.InsertInstance`: append the new row (the id is
assigned by the caller from the sequence). -/
def insertInstance (store : List WorkflowTemplateInstance)
    (wti : WorkflowTemplateInstance) : List WorkflowTemplateInstance :=
  store ++ [wti]

/-- steps 2 of the reconciler (`applyTemplate` lines 306-322): look up all
instances for (template, project, requested workflow name), keep the first
found as the candidate and delete every other one from the transaction. -/
def applyLookup (tx : List WorkflowTemplateInstance) (templateID projectID : Int)
    (workflowName : String) :
    List WorkflowTemplateInstance × Option WorkflowTemplateInstance :=
  let wtis := getInstancesByKey tx templateID projectID workflowName
  (wtis.tail.foldl deleteInstance tx, wtis.head?)

/-- step 3 of the reconciler (`applyTemplate` lines 324-330): if the request
is detached and a persisted candidate exists, delete it. -/
def applyDetachedFilter (req : WorkflowTemplateRequest)
    (tx : List WorkflowTemplateInstance) :
    Option WorkflowTemplateInstance →
    List WorkflowTemplateInstance × Option WorkflowTemplateInstance
  | some w => if req.detached then (deleteInstance tx w, none) else (tx, some w)
  | none => (tx, none)

/-- steps 4-5 of the reconciler (`applyTemplate` lines 332-359): update the
surviving candidate in place with the current template version and the new
request, or construct a new instance — persisted with a fresh sequence id
when the request is not detached, given a time-derived id and left
unpersisted when it is. Returns (transaction state, prior snapshot, the
instance handed to template execution). -/
def applyPrepare (nextId now : Int) (p : Project) (wt : WorkflowTemplate)
    (req : WorkflowTemplateRequest) (tx : List WorkflowTemplateInstance) :
    Option WorkflowTemplateInstance →
    List WorkflowTemplateInstance × Option WorkflowTemplateInstance × WorkflowTemplateInstance
  | some w =>
    let wUpd := { w with workflowTemplateVersion := wt.version, request := req }
    (updateInstance tx wUpd, some w, wUpd)
  | none =>
    let base : WorkflowTemplateInstance :=
      { id := 0, workflowTemplateID := wt.id, projectID := p.id,
        workflowTemplateVersion := wt.version, request := req, workflowName := "" }
    if req.detached then
      (tx, none, { base with id := now })
    else
      let wNew := { base with id := nextId }
      (insertInstance tx wNew, none, wNew)

/-- the instance handed to `workflowtemplate.Execute` by `applyTemplate` for
the given store and request. -/
def appliedInstance (nextId now : Int) (store : List WorkflowTemplateInstance)
    (p : Project) (wt : WorkflowTemplate) (req : WorkflowTemplateRequest) :
    WorkflowTemplateInstance :=
  let s1 := applyLookup store wt.id p.id req.workflowName
  let s2 := applyDetachedFilter req s1.1 s1.2
  (applyPrepare nextId now p wt req s2.1 s2.2).2.2

/-- step 9 of the reconciler (`applyTemplate` lines 399-403): after commit,
publish an update event when an existing instance was modified, an add event
when a new non-detached instance was created, and nothing otherwise. -/
def applyEvents (req : WorkflowTemplateRequest)
    (old : Option WorkflowTemplateInstance) (wti : WorkflowTemplateInstance) :
    List TemplateEvent :=
  match old with
  | some o => [.instanceUpdate o wti]
  | none => if req.detached then [] else [.instanceAdd wti]

/-- body of `api.applyTemplate` between `Begin` and `Commit` (templates.go
lines 306-393): reconcile the candidate instance, run template execution
and — for a non-detached request — parse the generated workflow to recover
its name, persist it on the instance and stamp the text with the
group-name/slug back-reference. Returns the result, the transaction's
instance list to commit and the events to emit after commit; an error means
every `return result, err` path of the Go code, on which the deferred
`tx.Rollback()` discards all writes. -/
def applyTransact (oc : ApplyOracles) (nextId now : Int)
    (store : List WorkflowTemplateInstance) (p : Project)
    (wt : WorkflowTemplate) (req : WorkflowTemplateRequest) :
    Except ApplyError
      (WorkflowTemplateResult × List WorkflowTemplateInstance × List TemplateEvent) :=
  let s1 := applyLookup store wt.id p.id req.workflowName
  let s2 := applyDetachedFilter req s1.1 s1.2
  let prep := applyPrepare nextId now p wt req s2.1 s2.2
  let tx := prep.1
  let old := prep.2.1
  let wti := prep.2.2
  match oc.execute wt wti with
  | .error e => .error (.execError e)
  | .ok result =>
    if req.detached then
      .ok (result, tx, applyEvents req old wti)
    else
      match oc.yamlUnmarshalWorkflow result.workflow with
      | none => .error (.wrongRequest "Cannot parse generated workflow")
      | some wor =>
        let wti2 := { wti with workflowName := wor.name }
        let tx2 := updateInstance tx wti2
        let templatePath := wt.groupName ++ "/" ++ wt.slug
        let wor2 := { wor with template := some templatePath }
        match oc.yamlMarshalWorkflow wor2 with
        | none => .error (.wrongRequest "Cannot add template info to generated workflow")
        | some b => .ok ({ result with workflow := b }, tx2, applyEvents req old wti2)

/-- model of `api.applyTemplate` (templates.go lines 297-406). `nextId` is the
sequence id `InsertInstance` would assign, `now` the wall-clock value used
for the id of a detached instance. On an error the deferred rollback leaves
the input store untouched and no event is emitted; on success the
transaction commits and the events are published. -/
def applyTemplate (oc : ApplyOracles) (nextId now : Int)
    (store : List WorkflowTemplateInstance) (p : Project)
    (wt : WorkflowTemplate) (req : WorkflowTemplateRequest) : ApplyOutcome :=
  match applyTransact oc nextId now store p wt req with
  | .error e => ⟨.error e, store, []⟩
  | .ok (r, tx, evs) => ⟨.ok r, tx, evs⟩

/-- mirrors the `sdk.OperationStatus` constants used by the bulk
orchestrator. -/
inductive OperationStatus where
  | pending
  | processing
  | done
  | error
deriving DecidableEq, Repr

/-- mirrors `sdk.WorkflowTemplateBulkOperation`: one apply request of a bulk
job, its status and the last recorded error text. -/
structure WorkflowTemplateBulkOperation where
  status : OperationStatus
  request : WorkflowTemplateRequest
  error : String
deriving DecidableEq, Repr

/-- mirrors `sdk.WorkflowTemplateBulk`: a bulk job owned by a user against
one template, holding an ordered operation list. -/
structure WorkflowTemplateBulk where
  id : Int
  userID : Int
  workflowTemplateID : Int
  operations : List WorkflowTemplateBulkOperation
deriving DecidableEq, Repr

/-- the deduplication key computed by `postTemplateBulkHandler` (templates.go
line 522): `fmt.Sprintf( "%s-%s", o.Request.ProjectKey, o.Request.WorkflowName)`. -/
def bulkKey (o : WorkflowTemplateBulkOperation) : String :=
  o.request.projectKey ++ "-" ++ o.request.workflowName

/-- pre-flight loop of `postTemplateBulkHandler` (templates.go lines
519-532): walk the operations in order keeping the set of already seen
keys; reject on a repeated key or on a `CheckParams` failure. `checkParams`
is the oracle for `wt.CheckParams` (`none` = valid, `some e` = the returned
error). -/
def checkBulkRequests (checkParams : WorkflowTemplateRequest → Option String) :
    List String → List WorkflowTemplateBulkOperation → Option String
  | _, [] => none
  | seen, o :: rest =>
    let key := bulkKey o
    if seen.contains key then
      some "request should be unique for a given project key and workflow name"
    else
      match checkParams o.request with
      | some e => some e
      | none => checkBulkRequests checkParams (key :: seen) rest

/-- model of the synchronous part of `postTemplateBulkHandler` (templates.go
lines 514-557): validate every request up front; on success build the job
with every operation initialized to `Pending` and persist it as a unit
(`InsertBulk`) before the asynchronous phase starts. Returns the handler's
result together with the job store after the call. -/
def postTemplateBulk (checkParams : WorkflowTemplateRequest → Option String)
    (bulkId userId : Int) (wt : WorkflowTemplate)
    (reqOps : List WorkflowTemplateBulkOperation)
    (jobs : List WorkflowTemplateBulk) :
    Except String WorkflowTemplateBulk × List WorkflowTemplateBulk :=
  match checkBulkRequests checkParams [] reqOps with
  | some e => (.error e, jobs)
  | none =>
    let bulk : WorkflowTemplateBulk :=
      { id := bulkId, userID := userId, workflowTemplateID := wt.id,
        operations := reqOps.map (fun o =>
          { status := .pending, request := o.request, error := "" }) }
    (.ok bulk, jobs ++ [bulk])

/-- oracles for the per-operation steps of the asynchronous bulk phase:
`project.Load`, `api.applyTemplate`, `workflowtemplate.Tar` and
`workflow.Push`. An `Except.error` carries the user-facing cause text that
`fmt.Sprintf( "%s", sdk.Cause(err))` would record (for the push step the
wrapping "cannot push generated workflow" is stripped again by `sdk.Cause`,
so the cause is the pushed error's own text). -/
structure BulkOracles where
  loadProject : String → Except String Project
  applyTpl : Project → WorkflowTemplateRequest → Except String WorkflowTemplateResult
  tarEncode : WorkflowTemplate → WorkflowTemplateResult → Except String String
  pushWorkflow : Project → String → Except String String

/-- the per-operation pipeline of the asynchronous loop (templates.go lines
581-625): load the project, apply the template, encode the archive, push
the workflow; `none` means every step succeeded, `some e` is the first
failing step's cause text. -/
def processOperation (oc : BulkOracles) (wt : WorkflowTemplate)
    (req : WorkflowTemplateRequest) : Option String :=
  match oc.loadProject req.projectKey with
  | .error e => some e
  | .ok p =>
    match oc.applyTpl p req with
    | .error e => some e
    | .ok res =>
      match oc.tarEncode wt res with
      | .error e => some e
      | .ok archive =>
        match oc.pushWorkflow p archive with
        | .error e => some e
        | .ok _ => none

/-- final record of one processed operation: `Done` on success of every
step, `Error` with the recorded cause otherwise (templates.go lines 569-579
and 627-631). -/
def runPendingOperation (oc : BulkOracles) (wt : WorkflowTemplate)
    (op : WorkflowTemplateBulkOperation) : WorkflowTemplateBulkOperation :=
  match processOperation oc wt op.request with
  | none => { op with status := .done }
  | some e => { op with status := .error, error := e }

/-- final record of one operation as produced by the asynchronous loop: a
`Pending` operation is marked `Processing` and then driven to its terminal
status; a non-`Pending` one is skipped. -/
def processedOperation (oc : BulkOracles) (wt : WorkflowTemplate)
    (op : WorkflowTemplateBulkOperation) : WorkflowTemplateBulkOperation :=
  if op.status = .pending then runPendingOperation oc wt { op with status := .processing }
  else op

/-- model of the asynchronous loop of `postTemplateBulkHandler` (templates.go
lines 560-634): walk the operations in list order; for each `Pending` one,
mark it `Processing` and persist the whole job, run the per-operation
pipeline, then persist the terminal status. Returns the final operation
list together with the successive persisted snapshots (the arguments of the
`UpdateBulk` calls, here modelled as always succeeding). The first argument
is the already-walked accumulator. -/
def processBulkOperations (oc : BulkOracles) (wt : WorkflowTemplate) :
    List WorkflowTemplateBulkOperation → List WorkflowTemplateBulkOperation →
    List WorkflowTemplateBulkOperation × List (List WorkflowTemplateBulkOperation)
  | walked, [] => (walked, [])
  | walked, op :: rest =>
    if op.status = .pending then
      let marked := { op with status := .processing }
      let opDone := runPendingOperation oc wt marked
      let next := processBulkOperations oc wt (walked ++ [opDone]) rest
      (next.1, (walked ++ marked :: rest) :: (walked ++ opDone :: rest) :: next.2)
    else
      processBulkOperations oc wt (walked ++ [op]) rest

/-- lexicographic at-most comparison of character lists by code point,
modelling Go's byte-wise string comparison (UTF-8 encoding preserves code
point order, so byte-wise and code-point-wise orders agree). -/
def lexLe : List Char → List Char → Bool
  | [], _ => true
  | _ :: _, [] => false
  | a :: as, b :: bs =>
    if a.toNat < b.toNat then true
    else if b.toNat < a.toNat then false
    else lexLe as bs

/-- the status transitions a single operation may take between two adjacent
persisted snapshots: stay, `Pending → Processing`, or `Processing` to a
terminal `Done`/`Error` status. -/
def allowedStatusStep (s t : OperationStatus) : Prop :=
  s = t ∨ (s = .pending ∧ t = .processing)
    ∨ (s = .processing ∧ (t = .done ∨ t = .error))

/-- pointwise forward progression between two persisted snapshots of the
same job: every operation takes an allowed status step. -/
def opsAllowed (l1 l2 : List WorkflowTemplateBulkOperation) : Prop :=
  List.Forall₂ (fun a b => allowedStatusStep a.status b.status) l1 l2

/-- comparison used by `getTemplateBulkHandler` (templates.go lines 675-677)
to sort the read-back operations by requested workflow name. -/
def opNameLe (x y : WorkflowTemplateBulkOperation) : Prop :=
  lexLe x.request.workflowName.data y.request.workflowName.data = true

instance : DecidableRel opNameLe := fun x y =>
  inferInstanceAs (Decidable (lexLe x.request.workflowName.data y.request.workflowName.data = true))

theorem lexLe_total (a b : List Char) : lexLe a b = true ∨ lexLe b a = true := by
  induction a generalizing b with
  | nil => left; rfl
  | cons x xs ih =>
    cases b with
    | nil => right; rfl
    | cons y ys =>
      rcases Nat.lt_trichotomy x.toNat y.toNat with h | h | h
      · left; simp [lexLe, h]
      · rcases ih ys with h2 | h2
        · left; simp [lexLe, h, h2]
        · right; simp [lexLe, h.symm, h2]
      · right; simp [lexLe, h]

theorem lexLe_trans {a b c : List Char} (h1 : lexLe a b = true)
    (h2 : lexLe b c = true) : lexLe a c = true := by
  induction a generalizing b c with
  | nil => rfl
  | cons x xs ih =>
    cases b with
    | nil => simp [lexLe] at h1
    | cons y ys =>
      cases c with
      | nil => simp [lexLe] at h2
      | cons z zs =>
        simp only [lexLe] at h1 h2 ⊢
        by_cases hxy : x.toNat < y.toNat
        · by_cases hyz : y.toNat < z.toNat
          · simp [Nat.lt_trans hxy hyz]
          · by_cases hzy : z.toNat < y.toNat
            · simp [hyz, hzy] at h2
            · have heq : y.toNat = z.toNat := by omega
              simp [show x.toNat < z.toNat by omega]
        · by_cases hyx : y.toNat < x.toNat
          · simp [hxy, hyx] at h1
          · have hexy : x.toNat = y.toNat := by omega
            have h1' : lexLe xs ys = true := by simpa [hxy, hyx] using h1
            by_cases hyz : y.toNat < z.toNat
            · simp [show x.toNat < z.toNat by omega]
            · by_cases hzy : z.toNat < y.toNat
              · simp [hyz, hzy] at h2
              · have h2' : lexLe ys zs = true := by simpa [hyz, hzy] using h2
                have hxz : ¬ x.toNat < z.toNat := by omega
                have hzx : ¬ z.toNat < x.toNat := by omega
                simp [hxz, hzx]
                exact ih h1' h2'

instance : IsTotal WorkflowTemplateBulkOperation opNameLe :=
  ⟨fun x y => lexLe_total x.request.workflowName.data y.request.workflowName.data⟩

instance : IsTrans WorkflowTemplateBulkOperation opNameLe :=
  ⟨fun _ _ _ h1 h2 => lexLe_trans h1 h2⟩

/-- model of the read path of `getTemplateBulkHandler` (templates.go lines
668-679): the stored job is returned with its operations sorted by
requested workflow name (`sort.Slice` on `Request.WorkflowName`). -/
def readBulkOperations (b : WorkflowTemplateBulk) :
    List WorkflowTemplateBulkOperation :=
  b.operations.insertionSort opNameLe

/-- one entry of the tar archive: its header name and its byte content
(modelled as a string). -/
structure TarEntry where
  name : String
  content : String
deriving DecidableEq, Repr

/-- substring test mirroring Go's `strings.Contains`. -/
def strContains (s pat : String) : Bool :=
  decide (pat.data <:+: s.data)

/-- scan state of `ReadFromTar` (templates.go lines 971-977): the collected
application/pipeline/environment blobs, the workflow blob (`nil` modelled as
the empty string, matching the `len(wkf) != 0` test), the parsed descriptor
(stand-in for `exportentities.Template`), the name of the entry it came
from, and the recorded errors (`sdk.MultiError`). -/
structure TarScanState where
  apps : List String
  pips : List String
  envs : List String
  wkf : String
  tmpl : Option String
  templateFileName : String
  errors : List String
deriving DecidableEq, Repr

/-- the empty scan state at the start of `ReadFromTar`. -/
def initialTarScanState : TarScanState :=
  { apps := [], pips := [], envs := [], wkf := "", tmpl := none,
    templateFileName := "", errors := [] }

/-- one iteration of the `ReadFromTar` entry loop (templates.go lines
992-1018): classify the entry by name pattern; a second `workflow.yml` with
a first non-empty one, a second descriptor entry, or a descriptor that
fails to parse are recorded as errors without aborting the scan.
`parseTemplateDesc` is the oracle for `yaml.Unmarshal` into
`exportentities.Template`. -/
def readTarEntryStep (parseTemplateDesc : String → Option String)
    (s : TarScanState) (e : TarEntry) : TarScanState :=
  if strContains e.name ".application." then { s with apps := s.apps ++ [e.content] }
  else if strContains e.name ".pipeline." then { s with pips := s.pips ++ [e.content] }
  else if strContains e.name ".environment." then { s with envs := s.envs ++ [e.content] }
  else if e.name == "workflow.yml" then
    if s.wkf ≠ "" then { s with errors := s.errors ++ [ "Two workflow files found"] }
    else { s with wkf := e.content }
  else
    if s.templateFileName ≠ "" then
      { s with errors := s.errors ++
        [ "Two template files found: " ++ s.templateFileName ++ " and " ++ e.name] }
    else
      match parseTemplateDesc e.content with
      | none => { s with errors := s.errors ++ [ "Unable to unmarshal template " ++ e.name] }
      | some t => { s with tmpl := some t, templateFileName := e.name }

/-- full scan of the archive: fold the entry loop over the entries in
archive order. -/
def tarScan (parseTemplateDesc : String → Option String)
    (entries : List TarEntry) : TarScanState :=
  entries.foldl (readTarEntryStep parseTemplateDesc) initialTarScanState

/-- the template value assembled by `tmpl.GetTemplate(wkf, pips, apps, envs)`
at the end of a successful decode. -/
structure AssembledTemplate where
  descriptor : Option String
  workflow : String
  pipelines : List String
  applications : List String
  environments : List String
deriving DecidableEq, Repr

/-- model of `ReadFromTar` (templates.go lines 967-1029): scan every entry,
then fail with the aggregate of the recorded errors if any, otherwise
assemble the template from the collected descriptor and blobs. -/
def readFromTar (parseTemplateDesc : String → Option String)
    (entries : List TarEntry) : Except (List String) AssembledTemplate :=
  let s := tarScan parseTemplateDesc entries
  if s.errors ≠ [] then .error s.errors
  else .ok { descriptor := s.tmpl, workflow := s.wkf, pipelines := s.pips,
             applications := s.apps, environments := s.envs }

/-- the non-error part of the scan state: the collected blobs, descriptor
and descriptor entry name. -/
structure TarScanCore where
  apps : List String
  pips : List String
  envs : List String
  wkf : String
  tmpl : Option String
  templateFileName : String
deriving DecidableEq, Repr

/-- projection of a scan state onto its non-error part. -/
def TarScanState.core (s : TarScanState) : TarScanCore :=
  ⟨s.apps, s.pips, s.envs, s.wkf, s.tmpl, s.templateFileName⟩

/-- effect of one scan step on the non-error part of the state. -/
def coreStep (parseTemplateDesc : String → Option String)
    (c : TarScanCore) (e : TarEntry) : TarScanCore :=
  if strContains e.name ".application." then { c with apps := c.apps ++ [e.content] }
  else if strContains e.name ".pipeline." then { c with pips := c.pips ++ [e.content] }
  else if strContains e.name ".environment." then { c with envs := c.envs ++ [e.content] }
  else if e.name == "workflow.yml" then
    if c.wkf ≠ "" then c else { c with wkf := e.content }
  else
    if c.templateFileName ≠ "" then c
    else
      match parseTemplateDesc e.content with
      | none => c
      | some t => { c with tmpl := some t, templateFileName := e.name }

/-- errors recorded by one scan step; they depend only on the non-error part
of the state. -/
def errStep (parseTemplateDesc : String → Option String)
    (c : TarScanCore) (e : TarEntry) : List String :=
  if strContains e.name ".application." then []
  else if strContains e.name ".pipeline." then []
  else if strContains e.name ".environment." then []
  else if e.name == "workflow.yml" then
    if c.wkf ≠ "" then [ "Two workflow files found"] else []
  else
    if c.templateFileName ≠ "" then
      [ "Two template files found: " ++ c.templateFileName ++ " and " ++ e.name]
    else
      match parseTemplateDesc e.content with
      | none => [ "Unable to unmarshal template " ++ e.name]
      | some _ => []

/-- non-error part of a full scan. -/
def coreScan (parseTemplateDesc : String → Option String)
    (c : TarScanCore) (entries : List TarEntry) : TarScanCore :=
  entries.foldl (coreStep parseTemplateDesc) c

/-- errors recorded along a full scan, in scan order. -/
def errScan (parseTemplateDesc : String → Option String) :
    TarScanCore → List TarEntry → List String
  | _, [] => []
  | c, e :: rest =>
    errStep parseTemplateDesc c e
      ++ errScan parseTemplateDesc (coreStep parseTemplateDesc c e) rest

/-- an entry name that matches none of the application/pipeline/environment
patterns and is not the workflow entry, hence is classified as a template
descriptor by the scan. -/
def isDescriptorName (name : String) : Bool :=
  !(strContains name ".application.") && !(strContains name ".pipeline.")
    && !(strContains name ".environment.") && !(name == "workflow.yml")

/-- descriptor-parse oracle that fails exactly on the content "BAD". -/
def parseNotBad : String → Option String :=
  fun s => if s == "BAD" then none else some s

/-- concrete project used by witnesses below. -/
def sampleProject : Project := ⟨20, "PKEY"⟩

/-- concrete template used by witnesses below. -/
def sampleTemplate : WorkflowTemplate := ⟨10, "grp", "slug", 2⟩

/-- oracles on which every external collaborator call succeeds. -/
def okOracles : ApplyOracles :=
  ⟨fun _ _ => .ok ⟨ "generated", [], [], []⟩,
   fun _ => some ⟨ "wfgen", none⟩,
   fun _ => some "stamped"⟩

/-- oracles on which template execution fails. -/
def execFailOracles : ApplyOracles :=
  ⟨fun _ _ => .error "execution failed",
   fun _ => some ⟨ "wfgen", none⟩,
   fun _ => some "stamped"⟩

/-- a detached apply request for workflow "wf" of the sample project. -/
def detachedReq : WorkflowTemplateRequest := ⟨ "PKEY", "wf", [], true⟩

/-- a non-detached apply request for workflow "wf" of the sample project. -/
def plainReq : WorkflowTemplateRequest := ⟨ "PKEY", "wf", [], false⟩

/-- a persisted instance matching (sampleTemplate, sampleProject, "wf"). -/
def inst1 : WorkflowTemplateInstance := ⟨1, 10, 20, 1, plainReq, "wf"⟩

/-- a second persisted instance for the same key as inst1 (a duplicate). -/
def inst2 : WorkflowTemplateInstance := ⟨2, 10, 20, 1, plainReq, "wf"⟩

/-- a persisted instance of a different template (not matching the key). -/
def inst3 : WorkflowTemplateInstance := ⟨3, 11, 20, 1, plainReq, "other"⟩

/-- a store holding two duplicate rows for one key plus an unrelated row. -/
def dupStore : List WorkflowTemplateInstance := [inst1, inst2, inst3]

/-- bulk operation on an existing project, requested name "wfB". -/
def bulkOpB : WorkflowTemplateBulkOperation := ⟨.pending, ⟨ "p", "wfB", [], false⟩, ""⟩

/-- bulk operation whose project load fails. -/
def bulkOpBad : WorkflowTemplateBulkOperation := ⟨.pending, ⟨ "bad", "wfC", [], false⟩, ""⟩

/-- bulk operation on an existing project, requested name "wfA". -/
def bulkOpA : WorkflowTemplateBulkOperation := ⟨.pending, ⟨ "q", "wfA", [], false⟩, ""⟩

/-- a bulk job operation list [valid, invalid-project, valid]. -/
def sampleBulkOps : List WorkflowTemplateBulkOperation := [bulkOpB, bulkOpBad, bulkOpA]

/-- bulk oracles on which only the project "bad" fails to load. -/
def sampleBulkOracles : BulkOracles :=
  ⟨fun k => if k == "bad" then .error "project bad not found" else .ok ⟨1, k⟩,
   fun _ _ => .ok ⟨ "generated", [], [], []⟩,
   fun _ _ => .ok "archive",
   fun _ _ => .ok "pushed"⟩

/-- two bulk operations with the same (project key, workflow name) pair. -/
def dupBulkOps : List WorkflowTemplateBulkOperation :=
  [⟨.pending, ⟨ "p", "w", [], false⟩, ""⟩, ⟨.pending, ⟨ "p", "w", [], false⟩, ""⟩]

/-- two bulk operations with distinct pairs whose "key-name" concatenations
collide: ( "p-x", "w") and ( "p", "x-w") both give "p-x-w". -/
def collideBulkOps : List WorkflowTemplateBulkOperation :=
  [⟨.pending, ⟨ "p-x", "w", [], false⟩, ""⟩, ⟨.pending, ⟨ "p", "x-w", [], false⟩, ""⟩]

/-- descriptor-parse oracle that accepts every entry. -/
def idParse : String → Option String := fun s => some s

/-- an archive with two entries named exactly workflow.yml, the first one
with empty content. -/
def twoWorkflowArchive : List TarEntry :=
  [⟨ "workflow.yml", ""⟩, ⟨ "workflow.yml", "content"⟩]

theorem foldl_deleteInstance_sublist (l tx : List WorkflowTemplateInstance) :
    List.Sublist (l.foldl deleteInstance tx) tx := by
  induction l generalizing tx with
  | nil => exact List.Sublist.refl tx
  | cons w l ih => exact (ih (deleteInstance tx w)).trans (List.filter_sublist _)

/-- C1 counterexample: a detached apply with a persisted candidate for the
same (template, project, requested workflow name) deletes that candidate,
so the set of persisted instances is NOT left unchanged. -/
theorem detached_apply_deletes_persisted_instance :
    (applyTemplate okOracles 99 77 [inst1] sampleProject sampleTemplate detachedReq).instances
      ≠ [inst1] := by decide

/-- C1 (amended): a detached apply never creates or updates a persisted
instance and never emits an instance add/update event; it may however delete
persisted candidates for the requested key, so the persisted instance list
after the call is a sublist of the one before. -/
theorem detached_apply_isolation (oc : ApplyOracles) (nextId now : Int)
    (store : List WorkflowTemplateInstance) (p : Project) (wt : WorkflowTemplate)
    (req : WorkflowTemplateRequest) (hdet : req.detached = true) :
    (applyTemplate oc nextId now store p wt req).events = []
      ∧ List.Sublist (applyTemplate oc nextId now store p wt req).instances store := by
  have key : ∀ r tx evs,
      applyTransact oc nextId now store p wt req = .ok (r, tx, evs) →
      evs = [] ∧ List.Sublist tx store := by
    intro r tx evs htr
    cases hc : (getInstancesByKey store wt.id p.id req.workflowName).head? with
    | none =>
      cases hex : oc.execute wt (appliedInstance nextId now store p wt req) with
      | error e =>
        simp only [appliedInstance, applyLookup, applyDetachedFilter, applyPrepare,
          hdet, hc, if_true] at hex
        simp [applyTransact, applyLookup, applyDetachedFilter, applyPrepare,
          hdet, hc, hex] at htr
      | ok result =>
        simp only [appliedInstance, applyLookup, applyDetachedFilter, applyPrepare,
          hdet, hc, if_true] at hex
        simp only [applyTransact, applyLookup, applyDetachedFilter, applyPrepare,
          applyEvents, hdet, hc, hex, if_true, Except.ok.injEq, Prod.mk.injEq] at htr
        obtain ⟨-, htx, hev⟩ := htr
        exact ⟨hev.symm, htx ▸ foldl_deleteInstance_sublist _ _⟩
    | some w =>
      cases hex : oc.execute wt (appliedInstance nextId now store p wt req) with
      | error e =>
        simp only [appliedInstance, applyLookup, applyDetachedFilter, applyPrepare,
          hdet, hc, if_true] at hex
        simp [applyTransact, applyLookup, applyDetachedFilter, applyPrepare,
          hdet, hc, hex] at htr
      | ok result =>
        simp only [appliedInstance, applyLookup, applyDetachedFilter, applyPrepare,
          hdet, hc, if_true] at hex
        simp only [applyTransact, applyLookup, applyDetachedFilter, applyPrepare,
          applyEvents, hdet, hc, hex, if_true, Except.ok.injEq, Prod.mk.injEq] at htr
        obtain ⟨-, htx, hev⟩ := htr
        exact ⟨hev.symm,
          htx ▸ (List.filter_sublist _).trans (foldl_deleteInstance_sublist _ _)⟩
  cases htr : applyTransact oc nextId now store p wt req with
  | error e =>
    constructor
    · simp [applyTemplate, htr]
    · simp only [applyTemplate, htr]
      exact List.Sublist.refl store
  | ok out =>
    obtain ⟨r, tx, evs⟩ := out
    obtain ⟨hev, hsub⟩ := key r tx evs htr
    constructor
    · simp [applyTemplate, htr, hev]
    · simp only [applyTemplate, htr]
      exact hsub

/-- witness for C1 (amended) at a concrete input. -/
theorem detached_apply_isolation_witness :
    detachedReq.detached = true
      ∧ ((applyTemplate okOracles 99 77 [inst1] sampleProject sampleTemplate detachedReq).events = []
        ∧ List.Sublist
            (applyTemplate okOracles 99 77 [inst1] sampleProject sampleTemplate detachedReq).instances
            [inst1]) :=
  ⟨rfl, detached_apply_isolation okOracles 99 77 [inst1] sampleProject sampleTemplate
    detachedReq rfl⟩

/-- C3: if template execution fails during an apply call, or any other step
fails before the transaction commits, the store is left untouched by the
rollback — in particular an instance row inserted earlier in the same call
does not exist after the call returns its error — and no event is
emitted. -/
theorem apply_rollback_on_failure (oc : ApplyOracles) (nextId now : Int)
    (store : List WorkflowTemplateInstance) (p : Project) (wt : WorkflowTemplate)
    (req : WorkflowTemplateRequest) (e : ApplyError)
    (herr : (applyTemplate oc nextId now store p wt req).result = .error e) :
    (applyTemplate oc nextId now store p wt req).instances = store
      ∧ (applyTemplate oc nextId now store p wt req).events = [] := by
  cases htr : applyTransact oc nextId now store p wt req with
  | error e2 => constructor <;> simp [applyTemplate, htr]
  | ok out =>
    obtain ⟨r, tx, evs⟩ := out
    simp [applyTemplate, htr] at herr

/-- witness for C3 at a concrete input: template execution fails on a
non-detached apply that would have inserted a row, and the store is
untouched. -/
theorem apply_rollback_on_failure_witness :
    (applyTemplate execFailOracles 99 77 dupStore sampleProject sampleTemplate plainReq).result
        = .error (.execError "execution failed")
      ∧ ((applyTemplate execFailOracles 99 77 dupStore sampleProject sampleTemplate plainReq).instances
            = dupStore
        ∧ (applyTemplate execFailOracles 99 77 dupStore sampleProject sampleTemplate plainReq).events
            = []) :=
  ⟨by decide,
   apply_rollback_on_failure execFailOracles 99 77 dupStore sampleProject sampleTemplate
     plainReq (.execError "execution failed") (by decide)⟩

theorem foldl_deleteInstance_eq_filter (l tx : List WorkflowTemplateInstance) :
    l.foldl deleteInstance tx = tx.filter (fun i => l.all (fun w => i.id != w.id)) := by
  induction l generalizing tx with
  | nil => simp
  | cons w l ih =>
    show l.foldl deleteInstance (deleteInstance tx w) = _
    rw [ih]
    unfold deleteInstance
    rw [List.filter_filter]
    apply List.filter_congr
    intro i _
    simp only [List.all_cons]
    exact Bool.and_comm _ _

theorem mem_updateInstance_of_mem {tx : List WorkflowTemplateInstance}
    {i w : WorkflowTemplateInstance} (hi : i ∈ tx) (hid : i.id = w.id) :
    w ∈ updateInstance tx w := by
  unfold updateInstance
  exact List.mem_map.mpr ⟨i, hi, by simp [hid]⟩

theorem updateInstance_updateInstance (tx : List WorkflowTemplateInstance)
    (u1 u2 : WorkflowTemplateInstance) (hid : u1.id = u2.id) :
    updateInstance (updateInstance tx u1) u2 = updateInstance tx u2 := by
  unfold updateInstance
  rw [List.map_map]
  apply List.map_congr_left
  intro i _
  by_cases h : i.id = u1.id
  · simp [Function.comp, h, hid, h.trans hid]
  · have h2 : ¬ i.id = u2.id := fun hh => h (hh.trans hid.symm)
    simp [Function.comp, h, h2]

theorem mem_foldl_deleteInstance {x : WorkflowTemplateInstance}
    {l tx : List WorkflowTemplateInstance} (hx : x ∈ tx)
    (hids : ∀ w ∈ l, x.id ≠ w.id) : x ∈ l.foldl deleteInstance tx := by
  rw [foldl_deleteInstance_eq_filter]
  refine List.mem_filter.mpr ⟨hx, ?_⟩
  simp only [List.all_eq_true]
  intro w hw
  simpa using hids w hw

theorem heal_filter (tID pID : Int) (nm : String)
    (store : List WorkflowTemplateInstance) (c u : WorkflowTemplateInstance)
    (hnodup : (store.map (fun i => i.id)).Nodup)
    (hms : (getInstancesByKey store tID pID nm).head? = some c)
    (hid : u.id = c.id) (hu : keyPred tID pID nm u = true) :
    ((updateInstance
        ((getInstancesByKey store tID pID nm).tail.foldl deleteInstance store) u).filter
      (keyPred tID pID nm)) = [u] := by
  simp only [getInstancesByKey] at hms ⊢
  induction store with
  | nil => simp at hms
  | cons a rest ih =>
    rw [List.map_cons, List.nodup_cons] at hnodup
    obtain ⟨ha, hnr⟩ := hnodup
    have hinj : ∀ x ∈ rest, ∀ y ∈ rest, x.id = y.id → x = y := by
      intro x hx y hy hxy
      exact List.inj_on_of_nodup_map hnr hx hy hxy
    by_cases hpa : keyPred tID pID nm a = true
    · rw [List.filter_cons_of_pos hpa] at hms ⊢
      have hca : a = c := by simpa using hms
      simp only [List.tail_cons]
      rw [foldl_deleteInstance_eq_filter]
      have hstep : (a :: rest).filter
          (fun i => (rest.filter (keyPred tID pID nm)).all (fun w => i.id != w.id))
          = a :: rest.filter (fun i => !(keyPred tID pID nm i)) := by
        rw [List.filter_cons_of_pos]
        · congr 1
          apply List.filter_congr
          intro i hi
          by_cases hpi : keyPred tID pID nm i = true
          · rw [hpi, Bool.not_true, List.all_eq_false]
            exact ⟨i, List.mem_filter.mpr ⟨hi, hpi⟩, by simp⟩
          · have hpi2 : keyPred tID pID nm i = false := by simpa using hpi
            rw [hpi2, Bool.not_false, List.all_eq_true]
            intro w hw
            simp only [bne_iff_ne, ne_eq]
            intro hiw
            have hwr : w ∈ rest := List.mem_of_mem_filter hw
            have heq : i = w := hinj i hi w hwr hiw
            subst heq
            exact hpi (List.of_mem_filter hw)
        · simp only [List.all_eq_true, bne_iff_ne, ne_eq]
          intro w hw haw
          exact ha (haw ▸ List.mem_map.mpr ⟨w, List.mem_of_mem_filter hw, rfl⟩)
      rw [hstep]
      unfold updateInstance
      rw [List.map_cons]
      have hau : (if a.id == u.id then u else a) = u := by
        simp [hid, hca]
      rw [hau, List.filter_cons_of_pos hu]
      have hrest : ((rest.filter (fun i => !(keyPred tID pID nm i))).map
          (fun i => if i.id == u.id then u else i)).filter (keyPred tID pID nm) = [] := by
        apply List.filter_eq_nil_iff.mpr
        intro b hb
        obtain ⟨i, hi, hbi⟩ := List.mem_map.mp hb
        have hir : i ∈ rest := List.mem_of_mem_filter hi
        have hpi : ¬ keyPred tID pID nm i = true := by
          have := List.of_mem_filter hi
          simpa using this
        have hiu : ¬ i.id = u.id := by
          intro hh
          apply ha
          rw [hid, ← hca] at hh
          exact hh ▸ List.mem_map.mpr ⟨i, hir, rfl⟩
        rw [if_neg (by simpa using hiu)] at hbi
        rw [← hbi]
        simpa using hpi
      rw [hrest]
    · rw [List.filter_cons_of_neg hpa] at hms ⊢
      rw [foldl_deleteInstance_eq_filter, List.filter_cons_of_pos, ← foldl_deleteInstance_eq_filter]
      · unfold updateInstance
        rw [List.map_cons]
        have hcr : c ∈ rest := by
          have : c ∈ rest.filter (keyPred tID pID nm) := by
            cases hf : rest.filter (keyPred tID pID nm) with
            | nil => rw [hf] at hms; simp at hms
            | cons x xs =>
              rw [hf] at hms
              simp only [List.head?_cons, Option.some.injEq] at hms
              rw [← hms]
              exact List.mem_cons_self x xs
          exact List.mem_of_mem_filter this
        have hau : ¬ a.id = u.id := by
          intro hh
          apply ha
          rw [hid] at hh
          exact hh ▸ List.mem_map.mpr ⟨c, hcr, rfl⟩
        rw [if_neg (by simpa using hau), List.filter_cons_of_neg hpa]
        exact ih hnr hms
      · simp only [List.all_eq_true, bne_iff_ne, ne_eq]
        intro w hw haw
        have hwr : w ∈ rest :=
          List.mem_of_mem_filter ((List.tail_sublist _).subset hw)
        exact ha (haw ▸ List.mem_map.mpr ⟨w, hwr, rfl⟩)

/-- C2: when the store holds two or more persisted instances for the same
(template, project, requested workflow name), a successful non-detached
apply keeps the first instance found as the candidate — the surviving row
carries the first candidate's id, updated in place with the current
template version and the new request — and deletes every other one instead
of failing the request, so exactly one persisted instance for that key
survives. -/
theorem duplicate_self_healing (oc : ApplyOracles) (nextId now : Int)
    (store : List WorkflowTemplateInstance) (p : Project) (wt : WorkflowTemplate)
    (req : WorkflowTemplateRequest)
    (hnodup : (store.map (fun i => i.id)).Nodup)
    (hdet : req.detached = false)
    (hdup : 2 ≤ (getInstancesByKey store wt.id p.id req.workflowName).length)
    (hok : (applyTemplate oc nextId now store p wt req).result.isOk = true) :
    ∃ c, (getInstancesByKey store wt.id p.id req.workflowName).head? = some c
      ∧ ∃ u, u.id = c.id ∧ u.request = req ∧ u.workflowTemplateVersion = wt.version
        ∧ (applyTemplate oc nextId now store p wt req).instances.filter
            (keyPred wt.id p.id req.workflowName) = [u] := by
  cases hms : (getInstancesByKey store wt.id p.id req.workflowName).head? with
  | none =>
    rw [List.head?_eq_none_iff] at hms
    rw [hms] at hdup
    simp at hdup
  | some c =>
    refine ⟨c, rfl, ?_⟩
    have hcm : c ∈ getInstancesByKey store wt.id p.id req.workflowName := by
      cases hf : getInstancesByKey store wt.id p.id req.workflowName with
      | nil => rw [hf] at hms; simp at hms
      | cons x xs =>
        rw [hf] at hms
        simp only [List.head?_cons, Option.some.injEq] at hms
        rw [← hms]
        exact List.mem_cons_self x xs
    have hck : keyPred wt.id p.id req.workflowName c = true :=
      List.of_mem_filter hcm
    cases hex : oc.execute wt (appliedInstance nextId now store p wt req) with
    | error e =>
      simp [appliedInstance, applyLookup, applyDetachedFilter, applyPrepare,
        hdet, hms] at hex
      simp [applyTemplate, applyTransact, applyLookup, applyDetachedFilter,
        applyPrepare, hdet, hms, hex] at hok
      simp [Except.isOk, Except.toBool] at hok
    | ok result =>
      simp [appliedInstance, applyLookup, applyDetachedFilter, applyPrepare,
        hdet, hms] at hex
      cases hunm : oc.yamlUnmarshalWorkflow result.workflow with
      | none =>
        simp [applyTemplate, applyTransact, applyLookup, applyDetachedFilter,
          applyPrepare, hdet, hms, hex, hunm] at hok
        simp [Except.isOk, Except.toBool] at hok
      | some wor =>
        cases hmar : oc.yamlMarshalWorkflow
            { wor with template := some (wt.groupName ++ "/" ++ wt.slug) } with
        | none =>
          simp [applyTemplate, applyTransact, applyLookup, applyDetachedFilter,
            applyPrepare, hdet, hms, hex, hunm, hmar] at hok
          simp [Except.isOk, Except.toBool] at hok
        | some b =>
          refine ⟨⟨c.id, c.workflowTemplateID, c.projectID, wt.version, req, wor.name⟩,
            rfl, rfl, rfl, ?_⟩
          simp only [applyTemplate, applyTransact, applyLookup, applyDetachedFilter,
            applyPrepare, applyEvents, hdet, hms, hex, hunm, hmar,
            Bool.false_eq_true, if_false]
          rw [updateInstance_updateInstance
            (List.foldl deleteInstance store
              (getInstancesByKey store wt.id p.id req.workflowName).tail)
            ⟨c.id, c.workflowTemplateID, c.projectID, wt.version, req, c.workflowName⟩
            ⟨c.id, c.workflowTemplateID, c.projectID, wt.version, req, wor.name⟩ rfl]
          apply heal_filter wt.id p.id req.workflowName store c
            ⟨c.id, c.workflowTemplateID, c.projectID, wt.version, req, wor.name⟩
            hnodup hms rfl
          simp only [keyPred] at hck ⊢
          simp only [Bool.and_eq_true, beq_iff_eq] at hck ⊢
          exact ⟨⟨hck.1.1, hck.1.2⟩, trivial⟩

/-- witness for C2 at a concrete input: a store with two duplicate rows for
one key plus an unrelated row; after a successful non-detached apply the
single surviving row for the key carries the first duplicate's id. -/
theorem duplicate_self_healing_witness :
    ((dupStore.map (fun i => i.id)).Nodup
      ∧ plainReq.detached = false
      ∧ 2 ≤ (getInstancesByKey dupStore sampleTemplate.id sampleProject.id
              plainReq.workflowName).length
      ∧ (applyTemplate okOracles 99 77 dupStore sampleProject sampleTemplate plainReq).result.isOk
          = true)
    ∧ ∃ c, (getInstancesByKey dupStore sampleTemplate.id sampleProject.id
              plainReq.workflowName).head? = some c
        ∧ ∃ u, u.id = c.id ∧ u.request = plainReq
          ∧ u.workflowTemplateVersion = sampleTemplate.version
          ∧ (applyTemplate okOracles 99 77 dupStore sampleProject sampleTemplate
              plainReq).instances.filter
              (keyPred sampleTemplate.id sampleProject.id plainReq.workflowName) = [u] :=
  ⟨⟨by decide, rfl, by decide, by decide⟩,
   duplicate_self_healing okOracles 99 77 dupStore sampleProject sampleTemplate plainReq
     (by decide) rfl (by decide) (by decide)⟩

/-- C9: for every non-detached apply that passes template execution, the
generated workflow text is parsed to recover its canonical name, that name
is written onto the persisted instance, and the returned workflow text is
the re-serialization of the parsed workflow stamped with the
group-name/slug back-reference to the originating template; a parse or
re-serialize failure yields the user-facing wrong-request errors "Cannot
parse generated workflow" / "Cannot add template info to generated
workflow" rather than an infrastructure fault. -/
theorem nondetached_apply_names_and_stamps (oc : ApplyOracles) (nextId now : Int)
    (store : List WorkflowTemplateInstance) (p : Project) (wt : WorkflowTemplate)
    (req : WorkflowTemplateRequest) (res : WorkflowTemplateResult)
    (hnodup : (store.map (fun i => i.id)).Nodup)
    (hdet : req.detached = false)
    (hex : oc.execute wt (appliedInstance nextId now store p wt req) = .ok res) :
    (oc.yamlUnmarshalWorkflow res.workflow = none →
      (applyTemplate oc nextId now store p wt req).result
        = .error (.wrongRequest "Cannot parse generated workflow"))
    ∧ (∀ wor, oc.yamlUnmarshalWorkflow res.workflow = some wor →
        (oc.yamlMarshalWorkflow
            { wor with template := some (wt.groupName ++ "/" ++ wt.slug) } = none →
          (applyTemplate oc nextId now store p wt req).result
            = .error (.wrongRequest "Cannot add template info to generated workflow"))
        ∧ ∀ b, oc.yamlMarshalWorkflow
              { wor with template := some (wt.groupName ++ "/" ++ wt.slug) } = some b →
            (applyTemplate oc nextId now store p wt req).result = .ok { res with workflow := b }
            ∧ ∃ i ∈ (applyTemplate oc nextId now store p wt req).instances,
                i.workflowName = wor.name ∧ i.request = req
                ∧ i.workflowTemplateID = wt.id ∧ i.projectID = p.id
                ∧ i.workflowTemplateVersion = wt.version) := by
  cases hms : (getInstancesByKey store wt.id p.id req.workflowName).head? with
  | none =>
    simp [appliedInstance, applyLookup, applyDetachedFilter, applyPrepare,
      hdet, hms] at hex
    refine ⟨?_, ?_⟩
    · intro hunm
      simp [applyTemplate, applyTransact, applyLookup, applyDetachedFilter,
        applyPrepare, hdet, hms, hex, hunm]
    · intro wor hunm
      refine ⟨?_, ?_⟩
      · intro hmar
        simp [applyTemplate, applyTransact, applyLookup, applyDetachedFilter,
          applyPrepare, hdet, hms, hex, hunm, hmar]
      · intro b hmar
        constructor
        · simp [applyTemplate, applyTransact, applyLookup, applyDetachedFilter,
            applyPrepare, hdet, hms, hex, hunm, hmar]
        · simp only [applyTemplate, applyTransact, applyLookup, applyDetachedFilter,
            applyPrepare, applyEvents, hdet, hms, hex, hunm, hmar,
            Bool.false_eq_true, if_false]
          refine ⟨⟨nextId, wt.id, p.id, wt.version, req, wor.name⟩, ?_,
            rfl, rfl, rfl, rfl, rfl⟩
          have hmem : (⟨nextId, wt.id, p.id, wt.version, req, ""⟩ : WorkflowTemplateInstance)
              ∈ insertInstance (List.foldl deleteInstance store
                  (getInstancesByKey store wt.id p.id req.workflowName).tail)
                ⟨nextId, wt.id, p.id, wt.version, req, ""⟩ := by
            unfold insertInstance
            exact List.mem_append_right _ (List.mem_singleton.mpr rfl)
          exact mem_updateInstance_of_mem hmem rfl
  | some c =>
    have hcm : c ∈ getInstancesByKey store wt.id p.id req.workflowName := by
      cases hf : getInstancesByKey store wt.id p.id req.workflowName with
      | nil => rw [hf] at hms; simp at hms
      | cons x xs =>
        rw [hf] at hms
        simp only [List.head?_cons, Option.some.injEq] at hms
        rw [← hms]
        exact List.mem_cons_self x xs
    have hck : keyPred wt.id p.id req.workflowName c = true :=
      List.of_mem_filter hcm
    have hck2 : c.workflowTemplateID = wt.id ∧ c.projectID = p.id := by
      simp only [keyPred, Bool.and_eq_true, beq_iff_eq] at hck
      exact ⟨hck.1.1, hck.1.2⟩
    have hcs : c ∈ store := List.mem_of_mem_filter hcm
    have hctx : c ∈ (getInstancesByKey store wt.id p.id req.workflowName).tail.foldl
        deleteInstance store := by
      apply mem_foldl_deleteInstance hcs
      intro w hw
      cases hf : getInstancesByKey store wt.id p.id req.workflowName with
      | nil => rw [hf] at hms; simp at hms
      | cons x xs =>
        rw [hf] at hms
        simp only [List.head?_cons, Option.some.injEq] at hms
        rw [hf] at hw
        simp only [List.tail_cons] at hw
        have hxs : ((x :: xs).map (fun i => i.id)).Nodup := by
          have : getInstancesByKey store wt.id p.id req.workflowName =
              List.filter (keyPred wt.id p.id req.workflowName) store := rfl
          refine List.Nodup.sublist ?_ hnodup
          refine List.Sublist.map _ ?_
          rw [← hf]
          exact List.filter_sublist _
        rw [List.map_cons, List.nodup_cons] at hxs
        intro hcw
        rw [hms] at hxs
        exact hxs.1 (by rw [hcw]; exact List.mem_map.mpr ⟨w, hw, rfl⟩)
    simp [appliedInstance, applyLookup, applyDetachedFilter, applyPrepare,
      hdet, hms] at hex
    refine ⟨?_, ?_⟩
    · intro hunm
      simp [applyTemplate, applyTransact, applyLookup, applyDetachedFilter,
        applyPrepare, hdet, hms, hex, hunm]
    · intro wor hunm
      refine ⟨?_, ?_⟩
      · intro hmar
        simp [applyTemplate, applyTransact, applyLookup, applyDetachedFilter,
          applyPrepare, hdet, hms, hex, hunm, hmar]
      · intro b hmar
        constructor
        · simp [applyTemplate, applyTransact, applyLookup, applyDetachedFilter,
            applyPrepare, hdet, hms, hex, hunm, hmar]
        · simp only [applyTemplate, applyTransact, applyLookup, applyDetachedFilter,
            applyPrepare, applyEvents, hdet, hms, hex, hunm, hmar,
            Bool.false_eq_true, if_false]
          rw [updateInstance_updateInstance
            (List.foldl deleteInstance store
              (getInstancesByKey store wt.id p.id req.workflowName).tail)
            ⟨c.id, c.workflowTemplateID, c.projectID, wt.version, req, c.workflowName⟩
            ⟨c.id, c.workflowTemplateID, c.projectID, wt.version, req, wor.name⟩ rfl]
          refine ⟨⟨c.id, c.workflowTemplateID, c.projectID, wt.version, req, wor.name⟩,
            ?_, rfl, rfl, hck2.1, hck2.2, rfl⟩
          exact mem_updateInstance_of_mem hctx rfl

/-- witness for C9 at a concrete input: the returned text is the marshalled
stamped workflow and the persisted instance carries the parsed name. -/
theorem nondetached_apply_names_and_stamps_witness :
    (applyTemplate okOracles 99 77 dupStore sampleProject sampleTemplate plainReq).result
        = .ok ⟨ "stamped", [], [], []⟩
      ∧ ∃ i ∈ (applyTemplate okOracles 99 77 dupStore sampleProject sampleTemplate
            plainReq).instances,
          i.workflowName = "wfgen" ∧ i.request = plainReq
          ∧ i.workflowTemplateID = sampleTemplate.id ∧ i.projectID = sampleProject.id
          ∧ i.workflowTemplateVersion = sampleTemplate.version := by
  have h := ((nondetached_apply_names_and_stamps okOracles 99 77 dupStore sampleProject
      sampleTemplate plainReq ⟨ "generated", [], [], []⟩ (by decide) rfl (by decide)).2
      ⟨ "wfgen", none⟩ rfl).2 "stamped" rfl
  exact h

theorem checkBulkRequests_none {cp : WorkflowTemplateRequest → Option String}
    {seen : List String} {ops : List WorkflowTemplateBulkOperation}
    (h : checkBulkRequests cp seen ops = none) :
    (∀ o ∈ ops, cp o.request = none)
      ∧ (ops.map bulkKey).Nodup
      ∧ ∀ o ∈ ops, bulkKey o ∉ seen := by
  induction ops generalizing seen with
  | nil => simp
  | cons o rest ih =>
    unfold checkBulkRequests at h
    dsimp only at h
    by_cases hs2 : bulkKey o ∈ seen
    · rw [if_pos (by simpa using hs2)] at h
      exact absurd h (by simp)
    · rw [if_neg (by simpa using hs2)] at h
      cases hcp : cp o.request with
      | some e => rw [hcp] at h; exact absurd h (by simp)
      | none =>
        rw [hcp] at h
        obtain ⟨h1, h2, h3⟩ := ih h
        refine ⟨?_, ?_, ?_⟩
        · intro x hx
          rcases List.mem_cons.mp hx with rfl | hx2
          · exact hcp
          · exact h1 x hx2
        · rw [List.map_cons, List.nodup_cons]
          refine ⟨?_, h2⟩
          intro hmem
          obtain ⟨x, hx, hkey⟩ := List.mem_map.mp hmem
          exact (h3 x hx) (hkey ▸ List.mem_cons_self _ _)
        · intro x hx
          rcases List.mem_cons.mp hx with rfl | hx2
          · exact hs2
          · intro hmem
            exact (h3 x hx2) (List.mem_cons_of_mem _ hmem)

/-- C4: a bulk request containing two operations with the same (project key,
workflow name) pair, or any operation failing the template's parameter
check, is rejected as a whole and no job record is persisted. -/
theorem bulk_preflight_rejects (cp : WorkflowTemplateRequest → Option String)
    (bulkId userId : Int) (wt : WorkflowTemplate)
    (reqOps : List WorkflowTemplateBulkOperation) (jobs : List WorkflowTemplateBulk)
    (h : ¬ (reqOps.map (fun o => (o.request.projectKey, o.request.workflowName))).Nodup
        ∨ ∃ o ∈ reqOps, cp o.request ≠ none) :
    ∃ e, postTemplateBulk cp bulkId userId wt reqOps jobs = (.error e, jobs) := by
  cases hchk : checkBulkRequests cp [] reqOps with
  | some e => exact ⟨e, by simp [postTemplateBulk, hchk]⟩
  | none =>
    exfalso
    obtain ⟨h1, h2, -⟩ := checkBulkRequests_none hchk
    rcases h with hdup | ⟨o, ho, hcp⟩
    · apply hdup
      have hkeys : reqOps.map bulkKey
          = (reqOps.map (fun o => (o.request.projectKey, o.request.workflowName))).map
              (fun q => q.1 ++ "-" ++ q.2) := by
        rw [List.map_map]
        rfl
      rw [hkeys] at h2
      exact h2.of_map
    · exact hcp (h1 o ho)

/-- witness for C4 at a concrete input: two operations with the same
(project key, workflow name) pair are rejected and the job store is
unchanged. -/
theorem bulk_preflight_rejects_witness :
    (¬ (dupBulkOps.map (fun o => (o.request.projectKey, o.request.workflowName))).Nodup)
      ∧ ∃ e, postTemplateBulk (fun _ => none) 1 1 sampleTemplate dupBulkOps [] = (.error e, []) :=
  ⟨by decide,
   bulk_preflight_rejects (fun _ => none) 1 1 sampleTemplate dupBulkOps []
     (Or.inl (by decide))⟩

/-- C10: the pre-flight duplicate check compares the concatenation
projectKey ++ "-" ++ workflowName, which is not injective: the bulk request
with operations ( "p-x", "w") and ( "p", "x-w") carries two distinct
(project key, workflow name) pairs, yet the call is rejected as a duplicate
and no job is persisted. -/
theorem bulk_duplicate_check_not_injective :
    (collideBulkOps.map (fun o => (o.request.projectKey, o.request.workflowName))).Nodup
      ∧ (postTemplateBulk (fun _ => none) 1 1 sampleTemplate collideBulkOps []).1
          = .error "request should be unique for a given project key and workflow name"
      ∧ (postTemplateBulk (fun _ => none) 1 1 sampleTemplate collideBulkOps []).2 = [] := by
  refine ⟨by decide, by decide, by decide⟩

theorem processBulkOperations_nil (oc : BulkOracles) (wt : WorkflowTemplate)
    (walked : List WorkflowTemplateBulkOperation) :
    processBulkOperations oc wt walked [] = (walked, []) := rfl

theorem processBulkOperations_cons (oc : BulkOracles) (wt : WorkflowTemplate)
    (walked : List WorkflowTemplateBulkOperation)
    (op : WorkflowTemplateBulkOperation) (rest : List WorkflowTemplateBulkOperation) :
    processBulkOperations oc wt walked (op :: rest)
      = if op.status = .pending then
          ((processBulkOperations oc wt
              (walked ++ [runPendingOperation oc wt { op with status := .processing }]) rest).1,
            (walked ++ { op with status := .processing } :: rest)
              :: (walked ++ runPendingOperation oc wt { op with status := .processing } :: rest)
              :: (processBulkOperations oc wt
                  (walked ++ [runPendingOperation oc wt { op with status := .processing }]) rest).2)
        else processBulkOperations oc wt (walked ++ [op]) rest := rfl

theorem processBulkOperations_final (oc : BulkOracles) (wt : WorkflowTemplate) :
    ∀ (rest walked : List WorkflowTemplateBulkOperation),
      (processBulkOperations oc wt walked rest).1
        = walked ++ rest.map (processedOperation oc wt) := by
  intro rest
  induction rest with
  | nil =>
    intro walked
    rw [processBulkOperations_nil, List.map_nil, List.append_nil]
  | cons op rest ih =>
    intro walked
    rw [processBulkOperations_cons]
    by_cases hp : op.status = .pending
    · rw [if_pos hp]
      show (processBulkOperations oc wt
          (walked ++ [runPendingOperation oc wt { op with status := .processing }]) rest).1
        = walked ++ List.map (processedOperation oc wt) (op :: rest)
      have hop : processedOperation oc wt op
          = runPendingOperation oc wt { op with status := .processing } := by
        unfold processedOperation
        rw [if_pos hp]
      rw [ih, List.map_cons, hop]
      simp
    · rw [if_neg hp]
      have hop : processedOperation oc wt op = op := by
        unfold processedOperation
        rw [if_neg hp]
      rw [ih, List.map_cons, hop]
      simp

theorem processBulkOperations_chain (oc : BulkOracles) (wt : WorkflowTemplate) :
    ∀ (rest walked : List WorkflowTemplateBulkOperation),
      List.Chain' opsAllowed
        ((walked ++ rest) :: (processBulkOperations oc wt walked rest).2) := by
  intro rest
  induction rest with
  | nil =>
    intro walked
    rw [List.append_nil, processBulkOperations_nil]
    exact List.chain'_singleton _
  | cons op rest ih =>
    intro walked
    rw [processBulkOperations_cons]
    by_cases hp : op.status = .pending
    · rw [if_pos hp]
      show List.Chain' opsAllowed ((walked ++ op :: rest)
        :: (walked ++ { op with status := .processing } :: rest)
        :: (walked ++ runPendingOperation oc wt { op with status := .processing } :: rest)
        :: (processBulkOperations oc wt
            (walked ++ [runPendingOperation oc wt { op with status := .processing }]) rest).2)
      rw [List.chain'_cons]
      constructor
      · unfold opsAllowed
        refine List.rel_append ?_ ?_
        · exact List.forall₂_same.mpr (fun a _ => Or.inl rfl)
        · exact List.Forall₂.cons (Or.inr (Or.inl ⟨hp, rfl⟩))
            (List.forall₂_same.mpr (fun a _ => Or.inl rfl))
      rw [List.chain'_cons]
      constructor
      · unfold opsAllowed
        refine List.rel_append ?_ ?_
        · exact List.forall₂_same.mpr (fun a _ => Or.inl rfl)
        · refine List.Forall₂.cons ?_ (List.forall₂_same.mpr (fun a _ => Or.inl rfl))
          have hterm : (runPendingOperation oc wt { op with status := .processing }).status
                = OperationStatus.done
              ∨ (runPendingOperation oc wt { op with status := .processing }).status
                = OperationStatus.error := by
            unfold runPendingOperation
            cases processOperation oc wt
                ({ op with status := .processing } : WorkflowTemplateBulkOperation).request with
            | none => left; rfl
            | some e => right; rfl
          rcases hterm with ht | ht
          · exact Or.inr (Or.inr ⟨rfl, Or.inl ht⟩)
          · exact Or.inr (Or.inr ⟨rfl, Or.inr ht⟩)
      · rw [List.append_cons]
        exact ih (walked ++ [runPendingOperation oc wt { op with status := .processing }])
    · rw [if_neg hp, List.append_cons]
      exact ih (walked ++ [op])

/-- C6: every bulk operation is initialized to Pending and the whole job is
persisted as a unit before the asynchronous phase begins, and across the
successive persisted snapshots of the asynchronous loop every operation's
status follows the strict forward progression Pending → Processing →
Done/Error with no backward transitions. -/
theorem bulk_status_progression (cp : WorkflowTemplateRequest → Option String)
    (bulkId userId : Int) (wt : WorkflowTemplate)
    (reqOps : List WorkflowTemplateBulkOperation) (jobs : List WorkflowTemplateBulk)
    (b : WorkflowTemplateBulk) (store2 : List WorkflowTemplateBulk)
    (hpost : postTemplateBulk cp bulkId userId wt reqOps jobs = (.ok b, store2)) :
    (∀ op ∈ b.operations, op.status = .pending)
      ∧ store2 = jobs ++ [b]
      ∧ ∀ oc, List.Chain' opsAllowed
          (b.operations :: (processBulkOperations oc wt [] b.operations).2) := by
  unfold postTemplateBulk at hpost
  cases hchk : checkBulkRequests cp [] reqOps with
  | some e => rw [hchk] at hpost; simp at hpost
  | none =>
    rw [hchk] at hpost
    simp only [Prod.mk.injEq, Except.ok.injEq] at hpost
    obtain ⟨hb, hs⟩ := hpost
    refine ⟨?_, ?_, ?_⟩
    · intro op hop
      rw [← hb] at hop
      simp only [List.mem_map] at hop
      obtain ⟨o, -, ho⟩ := hop
      rw [← ho]
    · rw [← hs, ← hb]
    · intro oc
      have h := processBulkOperations_chain oc wt b.operations []
      simpa using h

/-- witness for C6 at a concrete input: the job is created with all three
operations Pending, persisted as a unit, and the snapshot sequence of the
asynchronous phase only takes forward status steps. -/
theorem bulk_status_progression_witness :
    postTemplateBulk (fun _ => none) 7 1 sampleTemplate sampleBulkOps []
        = (.ok ⟨7, 1, 10, sampleBulkOps⟩, [⟨7, 1, 10, sampleBulkOps⟩])
      ∧ (∀ op ∈ (⟨7, 1, 10, sampleBulkOps⟩ : WorkflowTemplateBulk).operations,
          op.status = .pending)
      ∧ List.Chain' opsAllowed (sampleBulkOps ::
          (processBulkOperations sampleBulkOracles sampleTemplate [] sampleBulkOps).2) := by
  have h := bulk_status_progression (fun _ => none) 7 1 sampleTemplate sampleBulkOps []
    ⟨7, 1, 10, sampleBulkOps⟩ [⟨7, 1, 10, sampleBulkOps⟩] (by decide)
  exact ⟨by decide, h.1, h.2.2 sampleBulkOracles⟩

theorem processOperation_cause_nonempty (oc : BulkOracles) (wt : WorkflowTemplate)
    (req : WorkflowTemplateRequest) (e : String)
    (hne1 : ∀ k e2, oc.loadProject k = .error e2 → e2 ≠ "")
    (hne2 : ∀ p r e2, oc.applyTpl p r = .error e2 → e2 ≠ "")
    (hne3 : ∀ w r e2, oc.tarEncode w r = .error e2 → e2 ≠ "")
    (hne4 : ∀ p a e2, oc.pushWorkflow p a = .error e2 → e2 ≠ "")
    (h : processOperation oc wt req = some e) : e ≠ "" := by
  unfold processOperation at h
  cases hl : oc.loadProject req.projectKey with
  | error e2 =>
    simp only [hl, Option.some.injEq] at h
    subst h
    exact hne1 _ _ hl
  | ok p =>
    simp only [hl] at h
    cases ha : oc.applyTpl p req with
    | error e2 =>
      simp only [ha, Option.some.injEq] at h
      subst h
      exact hne2 _ _ _ ha
    | ok res =>
      simp only [ha] at h
      cases ht : oc.tarEncode wt res with
      | error e2 =>
        simp only [ht, Option.some.injEq] at h
        subst h
        exact hne3 _ _ _ ht
      | ok ar =>
        simp only [ht] at h
        cases hpu : oc.pushWorkflow p ar with
        | error e2 =>
          simp only [hpu, Option.some.injEq] at h
          subst h
          exact hne4 _ _ _ hpu
        | ok s =>
          simp [hpu] at h

/-- C5 counterexample: for the job with operations requesting workflow names
[wfB, wfC, wfA], the asynchronous loop stores them in original order, but
the bulk read endpoint returns them sorted by workflow name, so the
operations are NOT observed in original order when reading the job back. -/
theorem bulk_readback_not_original_order :
    readBulkOperations ⟨5, 1, 10,
        (processBulkOperations sampleBulkOracles sampleTemplate [] sampleBulkOps).1⟩
      ≠ (processBulkOperations sampleBulkOracles sampleTemplate [] sampleBulkOps).1 := by
  decide

/-- C5 (amended): within one bulk job whose operations are all Pending, the
operations are processed one at a time in their original list order and each
operation's final record depends only on that operation — a failing
per-operation step marks only that operation Error, records the failure's
(non-empty) cause text and processing continues with the remaining
operations — and the stored job preserves the original order; reading the
job back, however, returns the operations sorted by requested workflow name
(a permutation of the stored operations), not in original order. -/
theorem bulk_isolated_processing (oc : BulkOracles) (wt : WorkflowTemplate)
    (b : WorkflowTemplateBulk)
    (hp : ∀ op ∈ b.operations, op.status = .pending)
    (hne1 : ∀ k e2, oc.loadProject k = .error e2 → e2 ≠ "")
    (hne2 : ∀ p r e2, oc.applyTpl p r = .error e2 → e2 ≠ "")
    (hne3 : ∀ w r e2, oc.tarEncode w r = .error e2 → e2 ≠ "")
    (hne4 : ∀ p a e2, oc.pushWorkflow p a = .error e2 → e2 ≠ "") :
    ((processBulkOperations oc wt [] b.operations).1
        = b.operations.map (processedOperation oc wt))
      ∧ (∀ op ∈ b.operations,
          (processOperation oc wt op.request = none →
            processedOperation oc wt op = { op with status := .done })
          ∧ ∀ e, processOperation oc wt op.request = some e →
              e ≠ "" ∧ processedOperation oc wt op = { op with status := .error, error := e })
      ∧ (readBulkOperations ⟨b.id, b.userID, b.workflowTemplateID,
            (processBulkOperations oc wt [] b.operations).1⟩).Perm
          (processBulkOperations oc wt [] b.operations).1
      ∧ List.Sorted opNameLe (readBulkOperations ⟨b.id, b.userID, b.workflowTemplateID,
            (processBulkOperations oc wt [] b.operations).1⟩) := by
  refine ⟨?_, ?_, ?_, ?_⟩
  · have h := processBulkOperations_final oc wt b.operations []
    simpa using h
  · intro op hop
    have hps := hp op hop
    constructor
    · intro hnone
      unfold processedOperation
      rw [if_pos hps]
      unfold runPendingOperation
      rw [show ({ op with status := OperationStatus.processing }
          : WorkflowTemplateBulkOperation).request = op.request from rfl, hnone]
    · intro e he
      refine ⟨processOperation_cause_nonempty oc wt op.request e hne1 hne2 hne3 hne4 he, ?_⟩
      unfold processedOperation
      rw [if_pos hps]
      unfold runPendingOperation
      rw [show ({ op with status := OperationStatus.processing }
          : WorkflowTemplateBulkOperation).request = op.request from rfl, he]
  · exact List.perm_insertionSort _ _
  · exact List.sorted_insertionSort _ _

/-- witness for C5 (amended) at a concrete input: the job [wfB on project p,
wfC on the failing project bad, wfA on project q] is processed in order into
[Done, Error, Done] and the read-back is a sorted permutation. -/
theorem bulk_isolated_processing_witness :
    (∀ op ∈ (⟨5, 1, 10, sampleBulkOps⟩ : WorkflowTemplateBulk).operations,
        op.status = .pending)
      ∧ ((processBulkOperations sampleBulkOracles sampleTemplate [] sampleBulkOps).1
          = sampleBulkOps.map (processedOperation sampleBulkOracles sampleTemplate))
      ∧ ((processBulkOperations sampleBulkOracles sampleTemplate [] sampleBulkOps).1.map
          (fun o => o.status) = [.done, .error, .done])
      ∧ ((processBulkOperations sampleBulkOracles sampleTemplate [] sampleBulkOps).1.map
          (fun o => o.error) = [ "", "project bad not found", ""])
      ∧ (readBulkOperations ⟨5, 1, 10,
            (processBulkOperations sampleBulkOracles sampleTemplate [] sampleBulkOps).1⟩).Perm
          (processBulkOperations sampleBulkOracles sampleTemplate [] sampleBulkOps).1
      ∧ List.Sorted opNameLe (readBulkOperations ⟨5, 1, 10,
            (processBulkOperations sampleBulkOracles sampleTemplate [] sampleBulkOps).1⟩) := by
  have hne1 : ∀ k e2, sampleBulkOracles.loadProject k = .error e2 → e2 ≠ "" := by
    intro k e2 h
    simp only [sampleBulkOracles] at h
    split at h
    · simp only [Except.error.injEq] at h
      subst h
      decide
    · simp at h
  have hne2 : ∀ p r e2, sampleBulkOracles.applyTpl p r = .error e2 → e2 ≠ "" := by
    intro p r e2 h
    simp [sampleBulkOracles] at h
  have hne3 : ∀ w r e2, sampleBulkOracles.tarEncode w r = .error e2 → e2 ≠ "" := by
    intro w r e2 h
    simp [sampleBulkOracles] at h
  have hne4 : ∀ p a e2, sampleBulkOracles.pushWorkflow p a = .error e2 → e2 ≠ "" := by
    intro p a e2 h
    simp [sampleBulkOracles] at h
  have h := bulk_isolated_processing sampleBulkOracles sampleTemplate
    ⟨5, 1, 10, sampleBulkOps⟩ (by decide) hne1 hne2 hne3 hne4
  exact ⟨by decide, h.1, by decide, by decide, h.2.2.1, h.2.2.2⟩

/-- C7: evidence of the code divergence. Decoding an archive with two
entries named exactly workflow.yml SUCCEEDS when the first entry has empty
content, keeping the second entry's content — the loop tests
`len(wkf) != 0` instead of whether a workflow entry was already found, so
the empty first entry does not arm the duplicate check, contradicting the
claim and the code's own comment ( "if a workflow was already found, it's a
mistake"). With a non-empty first entry decoding fails as the claim says. -/
theorem two_workflow_entries_accepted :
    readFromTar idParse twoWorkflowArchive = .ok ⟨none, "content", [], [], []⟩
      ∧ readFromTar idParse [⟨ "workflow.yml", "x"⟩, ⟨ "workflow.yml", "y"⟩]
          = .error [ "Two workflow files found"] := by
  decide

theorem readTarEntryStep_decomp (pt : String → Option String)
    (s : TarScanState) (e : TarEntry) :
    (readTarEntryStep pt s e).core = coreStep pt s.core e
      ∧ (readTarEntryStep pt s e).errors = s.errors ++ errStep pt s.core e := by
  unfold readTarEntryStep coreStep errStep
  by_cases h1 : strContains e.name ".application." = true
  · simp [TarScanState.core, h1]
  · by_cases h2 : strContains e.name ".pipeline." = true
    · simp [TarScanState.core, h1, h2]
    · by_cases h3 : strContains e.name ".environment." = true
      · simp [TarScanState.core, h1, h2, h3]
      · by_cases h4 : (e.name == "workflow.yml") = true
        · by_cases h6 : s.wkf ≠ ""
          · simp [TarScanState.core, h1, h2, h3, h4, h6]
          · simp [TarScanState.core, h1, h2, h3, h4, h6]
        · by_cases h5 : s.templateFileName ≠ ""
          · simp [TarScanState.core, h1, h2, h3, h4, h5]
          · cases hp : pt e.content with
            | none => simp [TarScanState.core, h1, h2, h3, h4, h5, hp]
            | some t => simp [TarScanState.core, h1, h2, h3, h4, h5, hp]

theorem tarScan_decomp (pt : String → Option String) :
    ∀ (entries : List TarEntry) (s : TarScanState),
      (entries.foldl (readTarEntryStep pt) s).core = coreScan pt s.core entries
        ∧ (entries.foldl (readTarEntryStep pt) s).errors
            = s.errors ++ errScan pt s.core entries := by
  intro entries
  induction entries with
  | nil =>
    intro s
    simp [coreScan, errScan]
  | cons e rest ih =>
    intro s
    have hd := readTarEntryStep_decomp pt s e
    constructor
    · show ((rest.foldl (readTarEntryStep pt) (readTarEntryStep pt s e)).core) = _
      rw [(ih (readTarEntryStep pt s e)).1, hd.1]
      rfl
    · show ((rest.foldl (readTarEntryStep pt) (readTarEntryStep pt s e)).errors) = _
      rw [(ih (readTarEntryStep pt s e)).2, hd.2, hd.1, List.append_assoc]
      rfl

theorem errScan_append (pt : String → Option String) :
    ∀ (l1 l2 : List TarEntry) (c : TarScanCore),
      errScan pt c (l1 ++ l2) = errScan pt c l1 ++ errScan pt (coreScan pt c l1) l2 := by
  intro l1
  induction l1 with
  | nil =>
    intro l2 c
    simp [errScan, coreScan]
  | cons e rest ih =>
    intro l2 c
    show errStep pt c e ++ errScan pt (coreStep pt c e) (rest ++ l2) = _
    rw [ih l2 (coreStep pt c e), ← List.append_assoc]
    rfl

theorem coreStep_descriptor_malformed (pt : String → Option String)
    (c : TarScanCore) (e : TarEntry)
    (hn : isDescriptorName e.name = true) (hp : pt e.content = none) :
    coreStep pt c e = c ∧ errStep pt c e ≠ [] := by
  unfold isDescriptorName at hn
  simp only [Bool.and_eq_true, Bool.not_eq_true'] at hn
  obtain ⟨⟨⟨h1, h2⟩, h3⟩, h4⟩ := hn
  unfold coreStep errStep
  by_cases h5 : c.templateFileName ≠ ""
  · simp [h1, h2, h3, h4, h5]
  · simp [h1, h2, h3, h4, h5, hp]

/-- C8: the decode of an archive fails with the aggregate of the recorded
errors exactly when any error was recorded during the full scan, and
otherwise assembles the collected descriptor and
application/pipeline/environment/workflow blobs into a template value; a
descriptor entry that fails to parse is recorded as an error but does not
abort the scan — the non-error scan state over the remaining entries is the
same as if the malformed entry were absent, and decoding then fails. -/
theorem archive_decode_aggregate (pt : String → Option String) :
    (∀ entries, (tarScan pt entries).errors = [] →
        readFromTar pt entries = .ok
          { descriptor := (tarScan pt entries).tmpl,
            workflow := (tarScan pt entries).wkf,
            pipelines := (tarScan pt entries).pips,
            applications := (tarScan pt entries).apps,
            environments := (tarScan pt entries).envs })
      ∧ (∀ entries, (tarScan pt entries).errors ≠ [] →
          readFromTar pt entries = .error (tarScan pt entries).errors)
      ∧ (∀ pre post e, isDescriptorName e.name = true → pt e.content = none →
          (tarScan pt (pre ++ e :: post)).core = (tarScan pt (pre ++ post)).core
            ∧ (tarScan pt (pre ++ e :: post)).errors ≠ []) := by
  refine ⟨?_, ?_, ?_⟩
  · intro entries h
    simp [readFromTar, h]
  · intro entries h
    simp [readFromTar, h]
  · intro pre post e hn hp
    unfold tarScan
    have hbad := coreStep_descriptor_malformed pt (coreScan pt initialTarScanState.core pre) e hn hp
    have hins := tarScan_decomp pt (pre ++ e :: post) initialTarScanState
    have hdel := tarScan_decomp pt (pre ++ post) initialTarScanState
    have hcore : coreScan pt initialTarScanState.core (pre ++ e :: post)
        = coreScan pt initialTarScanState.core (pre ++ post) := by
      unfold coreScan
      rw [List.foldl_append, List.foldl_append]
      show List.foldl (coreStep pt)
          (coreStep pt (List.foldl (coreStep pt) initialTarScanState.core pre) e) post = _
      rw [show coreStep pt (List.foldl (coreStep pt) initialTarScanState.core pre) e
          = List.foldl (coreStep pt) initialTarScanState.core pre from hbad.1]
    constructor
    · rw [hins.1, hdel.1, hcore]
    · rw [hins.2]
      intro hcontra
      rw [show initialTarScanState.errors = [] from rfl, List.nil_append] at hcontra
      have herr : errScan pt initialTarScanState.core (pre ++ e :: post)
          = errScan pt initialTarScanState.core pre
            ++ (errStep pt (coreScan pt initialTarScanState.core pre) e
              ++ errScan pt (coreStep pt (coreScan pt initialTarScanState.core pre) e) post) := by
        rw [errScan_append pt pre (e :: post) initialTarScanState.core]
        rfl
      rw [herr] at hcontra
      rcases List.append_eq_nil.mp hcontra with ⟨-, h2⟩
      rcases List.append_eq_nil.mp h2 with ⟨h3, -⟩
      exact hbad.2 h3

/-- witness for C8 at a concrete input: an archive [application entry,
malformed descriptor, pipeline entry] still collects the pipeline entry
after the malformed descriptor, and decoding fails. -/
theorem archive_decode_aggregate_witness :
    (isDescriptorName "tmpl.yml" = true ∧ parseNotBad "BAD" = none)
      ∧ ((tarScan parseNotBad
            ([⟨ "a.application.yml", "app1"⟩] ++ ⟨ "tmpl.yml", "BAD"⟩
              :: [⟨ "b.pipeline.yml", "pip1"⟩])).core
          = (tarScan parseNotBad
              ([⟨ "a.application.yml", "app1"⟩] ++ [⟨ "b.pipeline.yml", "pip1"⟩])).core
        ∧ (tarScan parseNotBad
            ([⟨ "a.application.yml", "app1"⟩] ++ ⟨ "tmpl.yml", "BAD"⟩
              :: [⟨ "b.pipeline.yml", "pip1"⟩])).errors ≠ []) :=
  ⟨⟨by decide, rfl⟩,
   (archive_decode_aggregate parseNotBad).2.2 [⟨ "a.application.yml", "app1"⟩]
     [⟨ "b.pipeline.yml", "pip1"⟩] ⟨ "tmpl.yml", "BAD"⟩ (by decide) rfl⟩

end CDS
